import Mathlib

/-!
Verification of the query-safety and generation-orchestration pipeline of
ask-my-health (healthllm): the SQL validator (sql_guard.py), the template
intent router (sqlgen_templates.py) and the orchestrator (qa.py), shallowly
embedded over `List Char` as the text type. Python string operations are
modelled character by character (the source only ever handles ASCII SQL and
questions); regular-expression scans are modelled as explicit left-to-right,
non-overlapping scanners with the same backtracking-free semantics the
concrete patterns have.
-/

/-- Text is a list of characters (the embedding of a Python `str`). -/
abbrev Str := List Char

/-- Python whitespace class: the characters stripped by `str.strip()` and
matched by the regex class `\s` (ASCII part). -/
def isSpace (c : Char) : Bool :=
  c == ' ' || c == '\t' || c == '\n' || c == '\r' || c == '\x0b' || c == '\x0c'

/-- `str.lstrip()`. -/
def lstrip (l : Str) : Str := l.dropWhile isSpace

/-- `str.rstrip()`, written recursively from the left so that proofs can
proceed by structural induction. -/
def rstrip : Str → Str
  | [] => []
  | c :: cs =>
    let r := rstrip cs
    if r.isEmpty && isSpace c then [] else c :: r

/-- `str.strip()`. -/
def strip (l : Str) : Str := rstrip (lstrip l)

/-- `str.upper()` (ASCII; all text handled by the source is ASCII). -/
def upperL (l : Str) : Str := l.map Char.toUpper

/-- `str.lower()` (ASCII). -/
def lowerL (l : Str) : Str := l.map Char.toLower

/-- `s.startswith(p)` / an anchored regex literal match. -/
def prefixB : Str → Str → Bool
  | [], _ => true
  | _ :: _, [] => false
  | a :: as, b :: bs => a == b && prefixB as bs

/-- `s.endswith(p)` / the regex `p$` on a string with no trailing newline. -/
def suffixB (p l : Str) : Bool := prefixB p.reverse l.reverse

/-- Python's substring test `p in s`. -/
def infixB (p : Str) : Str → Bool
  | [] => p.isEmpty
  | c :: cs => prefixB p (c :: cs) || infixB p cs

/-- `c in s` for a single character. -/
def containsC (c : Char) (l : Str) : Bool := l.any (fun x => x == c)

/-- `sql_guard._normalize_sql`: trim, strip a leading/trailing code fence
(the trailing `\x60\x60\x60$` can only match at the very end because the text was
just stripped, so it has no trailing newline), trim again. -/
def normalize_sql (sql : Str) : Str :=
  let s := strip sql
  let s :=
    if prefixB ("```").data (lowerL s) then
      let s1 := if prefixB ("```sql").data (lowerL s) then lstrip (s.drop 6) else s
      let s2 := if prefixB ("```").data s1 then s1.drop 3 else s1
      if suffixB ("```").data s2 then s2.take (s2.length - 3) else s2
    else s
  strip s

/-- `sql_guard.DISALLOWED_KEYWORDS`. -/
def DISALLOWED_KEYWORDS : List Str :=
  [("INSERT").data, ("UPDATE").data, ("DELETE").data, ("CREATE").data,
   ("DROP").data, ("ATTACH").data, ("COPY").data, ("ALTER").data, ("PRAGMA").data]

/-- `sql_guard.SQL_FUNCTIONS_AND_CONSTANTS`. -/
def SQL_FUNCTIONS_AND_CONSTANTS : List Str :=
  [("current_date").data, ("current_time").data, ("current_timestamp").data,
   ("now").data, ("today").data, ("date").data]

/-- The regex class `\w` (ASCII). -/
def isWordChar (c : Char) : Bool := c.isAlpha || c.isDigit || c == '_'

/-- The regex class `[a-zA-Z_]`, the first character of a captured identifier. -/
def isIdentStart (c : Char) : Bool := c.isAlpha || c == '_'

/-- The regex class `[\w.]`, a continuation character of a captured identifier. -/
def isIdentChar (c : Char) : Bool := isWordChar c || c == '.'

/-- Attempt to match `(?:FROM|JOIN)\s+([a-zA-Z_][\w.]*)` (case-insensitive) at
the head of `l`; on success return the capture and the remaining text. The
quantifiers are forced here: `\s+` must swallow the whole whitespace run
(letters never match `\s`) and the identifier run is maximal. -/
def matchFromJoin (l : Str) : Option (Str × Str) :=
  let u := upperL (l.take 4)
  if u == ("FROM").data || u == ("JOIN").data then
    let r := l.drop 4
    if (r.takeWhile isSpace).isEmpty then none
    else
      match r.dropWhile isSpace with
      | [] => none
      | c :: cs =>
        if isIdentStart c then some (c :: cs.takeWhile isIdentChar, cs.dropWhile isIdentChar)
        else none
  else none

/-- `re.finditer` for `_TABLE_REF_RE`: left-to-right scan, word boundary `\b`
before the keyword (the previous character, if any, must not be a word
character), non-overlapping (resume after each match). Fuel is the length of
the scanned text, which every call supplies, so it never runs out: each step
consumes at least one character. -/
def scanTablesAux : Nat → Option Char → Str → List Str
  | 0, _, _ => []
  | _ + 1, _, [] => []
  | fuel + 1, prev, c :: cs =>
    let boundary := match prev with | none => true | some p => !(isWordChar p)
    if boundary then
      match matchFromJoin (c :: cs) with
      | some (cap, rest) => cap :: scanTablesAux fuel (some (cap.getLastD 'x')) rest
      | none => scanTablesAux fuel (some c) cs
    else scanTablesAux fuel (some c) cs

/-- All raw captures of `_TABLE_REF_RE` in order. -/
def rawTableRefs (sql : Str) : List Str := scanTablesAux sql.length none sql

/-- `raw.split(".")[-1]`: the last dot-separated segment. -/
def lastSegment (l : Str) : Str := (l.reverse.takeWhile (fun c => !(c == '.'))).reverse

/-- The identifiers `_find_tables` derives from the raw captures (last
segment, lower-cased) before the exclusion filter. -/
def tableNames (sql : Str) : List Str := (rawTableRefs sql).map (fun r => lowerL (lastSegment r))

/-- `sql_guard._find_tables`. -/
def find_tables (sql : Str) : List Str :=
  (tableNames sql).filter (fun t => !(SQL_FUNCTIONS_AND_CONSTANTS.contains t))

/-- Attempt to match `WITH\s+([a-zA-Z_][\w.]*)\s+AS` (case-insensitive) at the
head of `l` (the `\b` is checked by the caller). Returns the capture, the last
consumed character and the remaining text. -/
def matchWithCte (l : Str) : Option (Str × Char × Str) :=
  if upperL (l.take 4) == ("WITH").data then
    let r := l.drop 4
    if (r.takeWhile isSpace).isEmpty then none
    else
      match r.dropWhile isSpace with
      | [] => none
      | c :: cs =>
        if isIdentStart c then
          let cap := c :: cs.takeWhile isIdentChar
          let r2 := cs.dropWhile isIdentChar
          if (r2.takeWhile isSpace).isEmpty then none
          else
            let r3 := r2.dropWhile isSpace
            if upperL (r3.take 2) == ("AS").data then
              some (cap, (r3.take 2).getLastD 'S', r3.drop 2)
            else none
        else none
  else none

/-- `re.finditer` for `_CTE_NAME_RE` (`\bWITH\s+([a-zA-Z_][\w.]*)\s+AS`). -/
def scanCte1Aux : Nat → Option Char → Str → List Str
  | 0, _, _ => []
  | _ + 1, _, [] => []
  | fuel + 1, prev, c :: cs =>
    let boundary := match prev with | none => true | some p => !(isWordChar p)
    if boundary then
      match matchWithCte (c :: cs) with
      | some (cap, lastc, rest) => cap :: scanCte1Aux fuel (some lastc) rest
      | none => scanCte1Aux fuel (some c) cs
    else scanCte1Aux fuel (some c) cs

/-- The `\s*([a-zA-Z_][\w.]*)\s+AS\s*\(` body of the multi-CTE pattern,
matched at the head of `l`; returns the capture and the text after the
opening parenthesis. -/
def matchCteBody (l : Str) : Option (Str × Str) :=
  match l.dropWhile isSpace with
  | [] => none
  | c :: cs =>
    if isIdentStart c then
      let cap := c :: cs.takeWhile isIdentChar
      let r2 := cs.dropWhile isIdentChar
      if (r2.takeWhile isSpace).isEmpty then none
      else
        let r3 := r2.dropWhile isSpace
        if upperL (r3.take 2) == ("AS").data then
          match (r3.drop 2).dropWhile isSpace with
          | '(' :: rest => some (cap, rest)
          | _ => none
        else none
    else none

/-- `re.finditer` for the multi-CTE pattern `(?:^|\s|,)\s*([a-zA-Z_][\w.]*)\s+AS\s*\(`
with MULTILINE: `^` matches at the start and right after each newline;
otherwise the leading alternative consumes one whitespace or comma. -/
def scanCte2Aux : Nat → Option Char → Str → List Str
  | 0, _, _ => []
  | _ + 1, _, [] => []
  | fuel + 1, prev, c :: cs =>
    let caretOk := match prev with | none => true | some p => p == '\n'
    match (if caretOk then matchCteBody (c :: cs) else none) with
    | some (cap, rest) => cap :: scanCte2Aux fuel (some '(') rest
    | none =>
      if isSpace c || c == ',' then
        match matchCteBody cs with
        | some (cap, rest) => cap :: scanCte2Aux fuel (some '(') rest
        | none => scanCte2Aux fuel (some c) cs
      else scanCte2Aux fuel (some c) cs

/-- Python `hay.find(needle, start)` returning `none` for -1. -/
def strFindFrom (hay needle : Str) (start : Nat) : Option Nat :=
  (List.range (hay.length + 1)).find? (fun i => decide (start ≤ i) && prefixB needle (hay.drop i))

/-- `sql_guard._find_cte_names`: the `_CTE_NAME_RE` captures, plus — when the
statement starts with WITH — the multi-CTE captures inside the slice that ends
at the first `SELECT` after the first `WITH` (Python's `find` returns -1 when
absent, making the search start `-1 + 4 = 3`). The result is a set; we keep a
deduplicated list, of which only membership is ever used. -/
def find_cte_names (sql : Str) : List Str :=
  let names1 := (scanCte1Aux sql.length none sql).map (fun r => lowerL (lastSegment r))
  let names2 :=
    if prefixB ("WITH").data (strip (upperL sql)) then
      let u := upperL sql
      let wStart := match strFindFrom u ("WITH").data 0 with
        | some i => i + 4
        | none => 3
      match strFindFrom u ("SELECT").data wStart with
      | some e =>
        if 0 < e then
          (scanCte2Aux (sql.take e).length none (sql.take e)).map (fun r => lowerL (lastSegment r))
        else []
      | none => []
    else []
  (names1 ++ names2).dedup

/-- `sql_guard.SqlPolicy`. -/
structure SqlPolicy where
  allowed_tables : List Str
  deriving DecidableEq

/-- The fixed policy the orchestrator always validates with. -/
def defaultPolicy : SqlPolicy := ⟨[("daily_steps").data]⟩

/-- The rejection kinds of `UnsafeSQLError`, one per `raise` site of
`validate_sql` (the source attaches a message; we keep the data the message
carries). -/
inductive UnsafeSQLError where
  | EmptyQuery
  | NotASelect
  | MultipleStatements
  | DisallowedKeyword (kw : Str)
  | NoTableReferenced
  | UnauthorizedTable (tables : List Str)
  deriving DecidableEq

/-- Python string comparison (code-point lexicographic), used by `sorted`. -/
def lexLt : Str → Str → Bool
  | [], [] => false
  | [], _ :: _ => true
  | _ :: _, [] => false
  | a :: as, b :: bs => if a == b then lexLt as bs else decide (a < b)

/-- Insertion step of `sorted` (the offending-table lists are duplicate-free,
so stability is irrelevant). -/
def insertStr (x : Str) : List Str → List Str
  | [] => [x]
  | y :: ys => if lexLt x y then x :: y :: ys else y :: insertStr x ys

/-- Python `sorted` on a list of strings. -/
def sortStrs : List Str → List Str
  | [] => []
  | x :: xs => insertStr x (sortStrs xs)

/-- The canonical (possibly semicolon-stripped) statement text that
`validate_sql` scans and, on success, returns: `stripped[:-1].strip()` when a
trailing semicolon is present, the normalized text otherwise. -/
def canon_sql (sql : Str) : Str :=
  let n := normalize_sql sql
  let stripped := strip n
  if suffixB (";").data stripped then strip stripped.dropLast else n

/-- The second half of `sql_guard.validate_sql`, operating on the canonical
(semicolon-stripped) statement text: the disallowed-keyword scan, the
referenced-table requirement and the allow-list check. -/
def validate_tail (sql1 : Str) (policy : SqlPolicy) : Except UnsafeSQLError Str :=
  let upper := upperL sql1
  match DISALLOWED_KEYWORDS.find? (fun kw => infixB kw upper) with
  | some kw => .error (.DisallowedKeyword kw)
  | none =>
    let tables := ((find_tables sql1).map lowerL).dedup
    if tables.isEmpty then .error .NoTableReferenced
    else
      let ctes := find_cte_names sql1
      let allowed := (policy.allowed_tables.map lowerL) ++ ctes
      let unknown := sortStrs (tables.filter (fun t => !(allowed.contains t)))
      if !unknown.isEmpty then .error (.UnauthorizedTable unknown) else .ok sql1

/-- `sql_guard.validate_sql`, step for step: normalize; reject empty; require
a SELECT/WITH start; reject an internal semicolon and strip a trailing one
(`canon_sql`); then scan for disallowed keywords, require at least one
referenced table and reject tables outside the allow-list and the statement's
CTE names (`validate_tail`). -/
def validate_sql (sql : Str) (policy : SqlPolicy) : Except UnsafeSQLError Str :=
  let n := normalize_sql sql
  if n.isEmpty then .error .EmptyQuery
  else if !(prefixB ("SELECT").data (lstrip (upperL n)) || prefixB ("WITH").data (lstrip (upperL n))) then
    .error .NotASelect
  else if containsC ';' (strip n).dropLast then .error .MultipleStatements
  else validate_tail (canon_sql sql) policy

/-- Collapse every whitespace run to a single space: `re.sub(r"\s+", " ", q)`.
The flag records whether the previous character was whitespace. -/
def collapseWsAux : Bool → Str → Str
  | _, [] => []
  | prevWs, c :: cs =>
    if isSpace c then
      if prevWs then collapseWsAux true cs else ' ' :: collapseWsAux true cs
    else c :: collapseWsAux false cs

/-- `sqlgen_templates._norm`: strip, lower-case, collapse whitespace. -/
def norm_question (q : Str) : Str := collapseWsAux false (lowerL (strip q))

/-- `sqlgen_templates.NoTemplateMatchError` (both raise sites, the non-step
pre-gate and the final dead end, carry only a message). -/
inductive NoTemplateMatchError where
  | NoMatch
  deriving DecidableEq

/-- `sqlgen_templates.TemplateMatch`. -/
structure TemplateMatch where
  sql : Str
  matched_rule : Str
  deriving DecidableEq

/-- A single-quote character, written via its code point to keep the source
free of quote literals. -/
def sqc : String := (Char.ofNat 39).toString

/-- The `sum_this_year` template text (the triple-quoted literal after
`.strip()`, including its 12/14-space continuation indents). -/
def sum_this_year_sql : Str :=
  ("SELECT COALESCE(SUM(steps), 0) AS answer\n            FROM daily_steps\n            WHERE date >= date_trunc(" ++ sqc ++ "year" ++ sqc ++ ", current_date)\n              AND date <  date_trunc(" ++ sqc ++ "year" ++ sqc ++ ", current_date) + INTERVAL " ++ sqc ++ "1 year" ++ sqc).data

/-- The `sum_this_month` template text. -/
def sum_this_month_sql : Str :=
  ("SELECT COALESCE(SUM(steps), 0) AS answer\n            FROM daily_steps\n            WHERE date >= date_trunc(" ++ sqc ++ "month" ++ sqc ++ ", current_date)\n              AND date <  date_trunc(" ++ sqc ++ "month" ++ sqc ++ ", current_date) + INTERVAL " ++ sqc ++ "1 month" ++ sqc).data

/-- The `avg_per_day_all_time` template text. -/
def avg_per_day_sql : Str :=
  ("SELECT COALESCE(AVG(steps), 0) AS answer\n            FROM daily_steps").data

/-- Decimal digits of a natural number, structurally recursive on a fuel
bound (`n` itself bounds the number of divisions by ten). -/
def numStrAux : Nat → Nat → Str
  | 0, _ => []
  | fuel + 1, n =>
    if n < 10 then [Char.ofNat (48 + n)]
    else numStrAux fuel (n / 10) ++ [Char.ofNat (48 + n % 10)]

/-- Decimal rendering of a natural number, the model of Python `str(n)` used
by the `LIMIT {n}` f-string. -/
def numStr (n : Nat) : Str := numStrAux (n + 1) n

/-- The `top_n_days` template text for a given (already clamped) `n`. -/
def top_n_sql (n : Nat) : Str :=
  ("SELECT date, steps\n            FROM daily_steps\n            ORDER BY steps DESC, date DESC\n            LIMIT ").data ++ numStr n

/-- The `top_10_days_default` template text. -/
def top_10_sql : Str :=
  ("SELECT date, steps\n            FROM daily_steps\n            ORDER BY steps DESC, date DESC\n            LIMIT 10").data

/-- The `weekday_average` template text. -/
def weekday_sql : Str :=
  ("SELECT\n              strftime(date, " ++ sqc ++ "%w" ++ sqc ++ ") AS weekday_num,\n              AVG(steps) AS avg_steps\n            FROM daily_steps\n            GROUP BY 1\n            ORDER BY 1").data

/-- The `weekly_trend_last_12_weeks` template text. -/
def weekly_trend_sql : Str :=
  ("SELECT\n              date_trunc(" ++ sqc ++ "week" ++ sqc ++ ", date) AS week_start,\n              SUM(steps) AS steps\n            FROM daily_steps\n            WHERE date >= current_date - INTERVAL " ++ sqc ++ "84 days" ++ sqc ++ "\n            GROUP BY 1\n            ORDER BY 1").data

/-- Attempt to match `top\s+(\d+)` at the head of `l`; the quantifiers are
forced as usual (whitespace run, then a maximal digit run). -/
def matchTopN (l : Str) : Option Nat :=
  if prefixB ("top").data l then
    let r := l.drop 3
    if (r.takeWhile isSpace).isEmpty then none
    else
      let r2 := r.dropWhile isSpace
      let ds := r2.takeWhile Char.isDigit
      if ds.isEmpty then none
      else some (ds.foldl (fun acc c => 10 * acc + (c.toNat - 48)) 0)
  else none

/-- `re.search(r"top\s+(\d+)", q)`: the first position where the pattern
matches, scanned left to right. -/
def searchTopN : Str → Option Nat
  | [] => none
  | c :: cs =>
    match matchTopN (c :: cs) with
    | some n => some n
    | none => searchTopN cs

/-- `sqlgen_templates.generate_sql_from_templates`: the step-token pre-gate
followed by the ordered first-match-wins rules. -/
def generate_sql_from_templates (question : Str) : Except NoTemplateMatchError TemplateMatch :=
  let q := norm_question question
  if !(infixB ("steps").data q) && !(infixB ("walk").data q) && !(infixB ("step").data q) then
    .error .NoMatch
  else if infixB ("this year").data q || infixB ("in 2025").data q || infixB ("this yr").data q then
    .ok ⟨sum_this_year_sql, ("sum_this_year").data⟩
  else if infixB ("this month").data q then
    .ok ⟨sum_this_month_sql, ("sum_this_month").data⟩
  else if infixB ("average").data q || infixB ("avg").data q then
    .ok ⟨avg_per_day_sql, ("avg_per_day_all_time").data⟩
  else
    match searchTopN q with
    | some n0 => .ok ⟨top_n_sql (max 1 (min n0 50)), ("top_n_days").data⟩
    | none =>
      if infixB ("top").data q && infixB ("day").data q then
        .ok ⟨top_10_sql, ("top_10_days_default").data⟩
      else if infixB ("weekday").data q || infixB ("day of week").data q then
        .ok ⟨weekday_sql, ("weekday_average").data⟩
      else if infixB ("trend").data q || infixB ("weekly").data q || infixB ("last 12 weeks").data q then
        .ok ⟨weekly_trend_sql, ("weekly_trend_last_12_weeks").data⟩
      else .error .NoMatch

/-- `sqlgen_hf.HuggingFaceSqlGenError` (message only). -/
structure HfGenError where
  msg : Str
  deriving DecidableEq

/-- `sqlgen_hf.DEFAULT_MODEL`. -/
def DEFAULT_MODEL : Str := ("defog/sqlcoder-7b-2").data

/-- `sqlgen_hf.HfConfig` (the timeout only parametrizes the network call,
which is abstracted below). -/
structure HfConfig where
  token : Str
  model : Str
  timeout_s : Nat := 60
  deriving DecidableEq

/-- `sqlgen_hf.hf_config_from_env`: `None` when `HF_TOKEN` is unset or falsy
(empty); the model name falls back to the default. The process environment is
passed explicitly. -/
def hf_config_from_env (envToken envModel : Option Str) : Option HfConfig :=
  match envToken with
  | none => none
  | some t => if t.isEmpty then none else some ⟨t, envModel.getD DEFAULT_MODEL, 60⟩

/-- A DuckDB/pandas result frame: named columns and integer-valued rows
(the step data is BIGINT). -/
structure Df where
  cols : List Str
  rows : List (List Int)
  deriving DecidableEq

/-- An error raised by the store while executing a statement. -/
structure ExecError where
  msg : Str
  deriving DecidableEq

/-- First index of a column name, as `df.iloc[0][name]` resolves it. -/
def colIdx (x : Str) : List Str → Nat
  | [] => 0
  | y :: ys => if y == x then 0 else 1 + colIdx x ys

/-- The connection-lifecycle and execution events of one orchestrator call,
in order: the explicit-state rendering of `connect` / `con.sql` / `con.close`. -/
inductive ConnEvent where
  | opened
  | executed (sql : Str)
  | closed
  deriving DecidableEq

/-- `qa.QAResult`. -/
structure QAResult where
  sql : Str
  dataframe : Df
  scalar_answer : Option Int
  used_provider : Str
  deriving DecidableEq

/-- The errors `answer_steps_question` can raise. -/
inductive AnswerError where
  | EmptyQuestion
  | Generation (e : HfGenError)
  | NoTemplateMatch (e : NoTemplateMatchError)
  | UnsafeSql (e : UnsafeSQLError)
  | Execution (e : ExecError)
  deriving DecidableEq

/-- `qa.answer_steps_question`, step for step. The process environment
(`HF_TOKEN`, `HF_MODEL`), the outcome of the network-bound
`generate_sql_hf` call and the store execution are passed as explicit
parameters; `init_schema` issues only `CREATE TABLE IF NOT EXISTS`
statements and is modelled as always succeeding. The second component is the
ordered list of connection/execution events; note the source calls
`con.close()` only after a successful `_execute_sql`, so an execution error
leaves the connection unreleased. -/
def answer_steps_question (question : Str) (envToken envModel : Option Str)
    (hfGen : Str → HfConfig → Except HfGenError Str)
    (execF : Str → Except ExecError Df)
    (force_templates : Bool) : Except AnswerError QAResult × List ConnEvent :=
  let q := strip question
  if q.isEmpty then (.error .EmptyQuestion, [])
  else
    let hfCfg := if force_templates then none else hf_config_from_env envToken envModel
    let gen : Except AnswerError (Str × Str) :=
      match hfCfg with
      | some cfg =>
        match hfGen q cfg with
        | .ok sql => .ok (sql, ("hf").data)
        | .error e => .error (.Generation e)
      | none =>
        match generate_sql_from_templates q with
        | .ok m => .ok (m.sql, ("templates").data)
        | .error e => .error (.NoTemplateMatch e)
    match gen with
    | .error e => (.error e, [])
    | .ok (sql, used_provider) =>
      match validate_sql sql defaultPolicy with
      | .error e => (.error (.UnsafeSql e), [])
      | .ok vsql =>
        match execF vsql with
        | .error e => (.error (.Execution e), [.opened, .executed vsql])
        | .ok df =>
          let scalar :=
            if df.rows.length == 1 && df.cols.contains ("answer").data then
              (df.rows.headD []).get? (colIdx ("answer").data df.cols)
            else none
          (.ok ⟨vsql, df, scalar, used_provider⟩, [.opened, .executed vsql, .closed])

/-- A calendar date (year, month, day). -/
structure DateT where
  year : Nat
  month : Nat
  day : Nat
  deriving DecidableEq

/-- Modelled from the spec: the analytical store is out of scope for the core
("execute one validated SELECT, return rows with column names", §6), so its
behaviour on the one statement the end-to-end claim exercises is taken from
the spec's reading of the `sum_this_year` template: the sum of `steps` over
the rows of `daily_steps` whose date falls in the current calendar year,
`COALESCE`d to 0, in a single column named `answer`. Any other statement is
reported as an execution error. -/
def storeExec (rows : List (DateT × Int)) (today : DateT) (sql : Str) : Except ExecError Df :=
  if sql = sum_this_year_sql then
    .ok ⟨[("answer").data],
         [[((rows.filter (fun r => r.1.year == today.year)).map (fun r => r.2)).sum]]⟩
  else .error ⟨("unsupported statement").data⟩

deriving instance DecidableEq for Except

set_option maxRecDepth 100000
set_option maxHeartbeats 4000000

/-! ### Character-level facts -/

lemma char_toNat_ofNat (k : Nat) (h : k < 55296) : (Char.ofNat k).toNat = k := by
  have hv : Nat.isValidChar k := Or.inl h
  rw [Char.ofNat, dif_pos hv]
  rfl

lemma char_eq_of_toNat_eq {c d : Char} (h : c.toNat = d.toNat) : c = d := by
  apply Char.ext
  apply UInt32.eq_of_toBitVec_eq
  exact BitVec.eq_of_toNat_eq h

lemma toUpper_eq_ite (c : Char) :
    Char.toUpper c = if 97 ≤ c.toNat ∧ c.toNat ≤ 122 then Char.ofNat (c.toNat - 32) else c := rfl

lemma toLower_eq_ite (c : Char) :
    Char.toLower c = if 65 ≤ c.toNat ∧ c.toNat ≤ 90 then Char.ofNat (c.toNat + 32) else c := rfl

lemma toNat_toUpper (c : Char) :
    (Char.toUpper c).toNat = if 97 ≤ c.toNat ∧ c.toNat ≤ 122 then c.toNat - 32 else c.toNat := by
  rw [toUpper_eq_ite]
  by_cases h : 97 ≤ c.toNat ∧ c.toNat ≤ 122
  · rw [if_pos h, if_pos h]
    exact char_toNat_ofNat (c.toNat - 32) (by omega)
  · rw [if_neg h, if_neg h]

lemma toNat_toLower (c : Char) :
    (Char.toLower c).toNat = if 65 ≤ c.toNat ∧ c.toNat ≤ 90 then c.toNat + 32 else c.toNat := by
  rw [toLower_eq_ite]
  by_cases h : 65 ≤ c.toNat ∧ c.toNat ≤ 90
  · rw [if_pos h, if_pos h]
    exact char_toNat_ofNat (c.toNat + 32) (by omega)
  · rw [if_neg h, if_neg h]

lemma isSpace_iff (c : Char) :
    isSpace c = true ↔ (c.toNat = 32 ∨ c.toNat = 9 ∨ c.toNat = 10 ∨ c.toNat = 13 ∨
      c.toNat = 11 ∨ c.toNat = 12) := by
  unfold isSpace
  simp only [Bool.or_eq_true, beq_iff_eq]
  constructor
  · intro h
    rcases h with ((((h | h) | h) | h) | h) | h <;> subst h <;> simp
  · intro h
    rcases h with h | h | h | h | h | h
    · have e : c = ' ' := char_eq_of_toNat_eq (by rw [h]; decide)
      simp [e]
    · have e : c = '\t' := char_eq_of_toNat_eq (by rw [h]; decide)
      simp [e]
    · have e : c = '\n' := char_eq_of_toNat_eq (by rw [h]; decide)
      simp [e]
    · have e : c = '\r' := char_eq_of_toNat_eq (by rw [h]; decide)
      simp [e]
    · have e : c = '\x0b' := char_eq_of_toNat_eq (by rw [h]; decide)
      simp [e]
    · have e : c = '\x0c' := char_eq_of_toNat_eq (by rw [h]; decide)
      simp [e]

lemma isSpace_toUpper (c : Char) : isSpace (Char.toUpper c) = isSpace c := by
  by_cases h : isSpace c = true
  · have hn := (isSpace_iff c).mp h
    have hu : (Char.toUpper c).toNat = c.toNat := by
      rw [toNat_toUpper]
      by_cases h2 : 97 ≤ c.toNat ∧ c.toNat ≤ 122
      · omega
      · rw [if_neg h2]
    rw [h]
    exact (isSpace_iff _).mpr (by rw [hu]; exact hn)
  · have h' : isSpace c = false := by revert h; cases isSpace c <;> simp
    rw [h']
    by_cases h2 : isSpace (Char.toUpper c) = true
    · exfalso
      have hn := (isSpace_iff _).mp h2
      rw [toNat_toUpper] at hn
      apply h
      apply (isSpace_iff c).mpr
      by_cases h3 : 97 ≤ c.toNat ∧ c.toNat ≤ 122
      · rw [if_pos h3] at hn
        omega
      · rw [if_neg h3] at hn
        exact hn
    · revert h2; cases isSpace (Char.toUpper c) <;> simp

/-! ### Strip and scan facts -/

lemma dropWhile_idem (p : Char → Bool) (l : Str) :
    (l.dropWhile p).dropWhile p = l.dropWhile p := by
  induction l with
  | nil => rfl
  | cons c cs ih =>
    by_cases h : p c = true
    · simp [List.dropWhile_cons, h, ih]
    · simp [List.dropWhile_cons, h]

lemma length_dropWhile_le (p : Char → Bool) (l : Str) :
    (l.dropWhile p).length ≤ l.length := by
  induction l with
  | nil => simp
  | cons c cs ih =>
    rw [List.dropWhile_cons]
    by_cases h : p c = true
    · rw [if_pos h]
      exact Nat.le_trans ih (by simp)
    · rw [if_neg h]

lemma head_dropWhile_false {p : Char → Bool} {l : Str} {c : Char} {cs : Str}
    (h : l.dropWhile p = c :: cs) : p c = false := by
  induction l with
  | nil => simp at h
  | cons d ds ih =>
    by_cases hd : p d = true
    · rw [List.dropWhile_cons, if_pos hd] at h
      exact ih h
    · rw [List.dropWhile_cons, if_neg hd] at h
      cases h
      revert hd; cases p c <;> simp

lemma lstrip_cons_false {c : Char} {l : Str} (h : isSpace c = false) :
    lstrip (c :: l) = c :: l := by
  simp [lstrip, List.dropWhile_cons, h]

lemma rstrip_cons (c : Char) (cs : Str) :
    rstrip (c :: cs) = if ((rstrip cs).isEmpty && isSpace c) = true then [] else c :: rstrip cs :=
  rfl

lemma rstrip_cons_false {c : Char} {l : Str} (h : isSpace c = false) :
    rstrip (c :: l) = c :: rstrip l := by
  rw [rstrip_cons, h]
  simp

lemma rstrip_idem (l : Str) : rstrip (rstrip l) = rstrip l := by
  induction l with
  | nil => rfl
  | cons c cs ih =>
    rw [rstrip_cons]
    by_cases h : ((rstrip cs).isEmpty && isSpace c) = true
    · rw [if_pos h]
      rfl
    · rw [if_neg h]
      rw [rstrip_cons, ih]
      rw [if_neg h]

lemma lstrip_rstrip {l : Str} (h : lstrip l = l) : lstrip (rstrip l) = rstrip l := by
  cases l with
  | nil => rfl
  | cons c cs =>
    have hc : isSpace c = false := by
      by_cases hc : isSpace c = true
      · exfalso
        rw [lstrip, List.dropWhile_cons, if_pos hc] at h
        have hle : (List.dropWhile isSpace cs).length ≤ cs.length := length_dropWhile_le _ _
        have h2 : (List.dropWhile isSpace cs).length = (c :: cs).length := by rw [h]
        simp at h2
        omega
      · revert hc; cases isSpace c <;> simp
    rw [rstrip_cons_false hc, lstrip_cons_false hc]

lemma strip_idem (l : Str) : strip (strip l) = strip l := by
  unfold strip
  have h1 : lstrip (lstrip l) = lstrip l := dropWhile_idem _ _
  rw [lstrip_rstrip h1, rstrip_idem]

lemma normalize_stripped (s : Str) : strip (normalize_sql s) = normalize_sql s :=
  strip_idem _

lemma rstrip_head {l : Str} {c : Char} {cs : Str} (h : rstrip l = c :: cs) :
    ∃ ds, l = c :: ds := by
  cases l with
  | nil => simp [rstrip] at h
  | cons d ds =>
    rw [rstrip_cons] at h
    by_cases hb : ((rstrip ds).isEmpty && isSpace d) = true
    · rw [if_pos hb] at h
      simp at h
    · rw [if_neg hb] at h
      cases h
      exact ⟨ds, rfl⟩

lemma head_strip_not_space {l : Str} {c : Char} {cs : Str} (h : strip l = c :: cs) :
    isSpace c = false := by
  unfold strip at h
  obtain ⟨ds, hds⟩ := rstrip_head h
  exact head_dropWhile_false hds

lemma mem_lstrip {x : Char} {l : Str} (h : x ∈ lstrip l) : x ∈ l := by
  induction l with
  | nil => simp [lstrip] at h
  | cons c cs ih =>
    rw [lstrip, List.dropWhile_cons] at h
    by_cases hc : isSpace c = true
    · rw [if_pos hc] at h
      exact List.mem_cons_of_mem _ (ih h)
    · rw [if_neg hc] at h
      exact h

lemma mem_rstrip {x : Char} {l : Str} (h : x ∈ rstrip l) : x ∈ l := by
  induction l with
  | nil => simp [rstrip] at h
  | cons c cs ih =>
    rw [rstrip_cons] at h
    by_cases hb : ((rstrip cs).isEmpty && isSpace c) = true
    · rw [if_pos hb] at h
      simp at h
    · rw [if_neg hb] at h
      rcases List.mem_cons.mp h with h | h
      · exact h ▸ List.mem_cons_self _ _
      · exact List.mem_cons_of_mem _ (ih h)

lemma mem_strip {x : Char} {l : Str} (h : x ∈ strip l) : x ∈ l :=
  mem_lstrip (mem_rstrip h)

/-! ### Prefix, suffix and membership facts -/

lemma prefixB_cons (a : Char) (p : Str) (b : Char) (bs : Str) :
    prefixB (a :: p) (b :: bs) = (a == b && prefixB p bs) := rfl

lemma prefixB_cons_iff {a : Char} {p : Str} {l : Str} :
    prefixB (a :: p) l = true ↔ ∃ cs, l = a :: cs ∧ prefixB p cs = true := by
  cases l with
  | nil =>
    simp only [prefixB]
    constructor
    · intro h; cases h
    · rintro ⟨cs, hcs, -⟩; cases hcs
  | cons b bs =>
    rw [prefixB_cons]
    simp only [Bool.and_eq_true, beq_iff_eq]
    constructor
    · rintro ⟨rfl, h⟩
      exact ⟨bs, rfl, h⟩
    · rintro ⟨cs, hcs, h⟩
      injection hcs with h1 h2
      subst h1
      subst h2
      exact ⟨rfl, h⟩

lemma prefixB_ne_nil {a : Char} {p : Str} {l : Str} (h : prefixB (a :: p) l = true) :
    l ≠ [] := by
  obtain ⟨cs, hcs, -⟩ := prefixB_cons_iff.mp h
  simp [hcs]

lemma prefixB_append_right {p x : Str} (y : Str) (h : prefixB p x = true) :
    prefixB p (x ++ y) = true := by
  induction p generalizing x with
  | nil => rfl
  | cons a as ih =>
    obtain ⟨cs, rfl, h2⟩ := prefixB_cons_iff.mp h
    exact prefixB_cons_iff.mpr ⟨cs ++ y, rfl, ih h2⟩

lemma prefixB_append_single {p x : Str} {d : Char} (h : prefixB p (x ++ [d]) = true)
    (hd : d ∉ p) : prefixB p x = true := by
  induction p generalizing x with
  | nil => rfl
  | cons a as ih =>
    obtain ⟨cs, hcs, h2⟩ := prefixB_cons_iff.mp h
    cases x with
    | nil =>
      exfalso
      rw [List.nil_append] at hcs
      injection hcs with h1 h2'
      apply hd
      rw [h1]
      exact List.mem_cons_self _ _
    | cons b bs =>
      rw [List.cons_append] at hcs
      injection hcs with h1 h2'
      subst h1
      subst h2'
      exact prefixB_cons_iff.mpr ⟨bs, rfl, ih h2 (fun hm => hd (List.mem_cons_of_mem _ hm))⟩

lemma prefixB_upper_rstrip {p u : Str} (hp : ∀ c ∈ p, isSpace c = false)
    (h : prefixB p (upperL u) = true) : prefixB p (upperL (rstrip u)) = true := by
  induction p generalizing u with
  | nil => rfl
  | cons a as ih =>
    cases u with
    | nil => simp [upperL, prefixB] at h
    | cons c cs =>
      simp only [upperL, List.map_cons] at h
      rw [prefixB_cons] at h
      simp only [Bool.and_eq_true, beq_iff_eq] at h
      have hc : isSpace c = false := by
        rw [← isSpace_toUpper, ← h.1]
        exact hp a (List.mem_cons_self _ _)
      rw [rstrip_cons_false hc]
      simp only [upperL, List.map_cons]
      rw [prefixB_cons]
      simp only [Bool.and_eq_true, beq_iff_eq]
      exact ⟨h.1, ih (fun x hx => hp x (List.mem_cons_of_mem _ hx)) h.2⟩

lemma suffixB_singleton_iff {c : Char} {l : Str} :
    suffixB [c] l = true ↔ ∃ ys, l = ys ++ [c] := by
  unfold suffixB
  constructor
  · intro h
    cases hr : l.reverse with
    | nil =>
      rw [hr] at h
      simp [prefixB] at h
    | cons d ds =>
      rw [hr] at h
      have hcd : c = d := by
        have := prefixB_cons_iff.mp h
        obtain ⟨cs, hcs, -⟩ := this
        injection hcs with h1 h2
        exact h1.symm
      refine ⟨ds.reverse, ?_⟩
      have hl : l = (d :: ds).reverse := by
        rw [← hr, List.reverse_reverse]
      rw [hl, List.reverse_cons, hcd]
  · rintro ⟨ys, rfl⟩
    rw [List.reverse_append]
    simp only [List.reverse_cons, List.reverse_nil, List.nil_append, List.singleton_append]
    rw [prefixB_cons]
    simp [prefixB]

lemma mem_of_suffixB {c : Char} {l : Str} (h : suffixB [c] l = true) : c ∈ l := by
  obtain ⟨ys, rfl⟩ := suffixB_singleton_iff.mp h
  simp

lemma suffixB_false_of_not_mem {c : Char} {l : Str} (h : c ∉ l) : suffixB [c] l = false := by
  by_cases hs : suffixB [c] l = true
  · exact absurd (mem_of_suffixB hs) h
  · revert hs; cases suffixB [c] l <;> simp

lemma mem_dropLast {x : Char} {l : Str} (h : x ∈ l.dropLast) : x ∈ l := by
  induction l with
  | nil => simp at h
  | cons c cs ih =>
    cases cs with
    | nil => simp at h
    | cons d ds =>
      rw [List.dropLast_cons₂] at h
      rcases List.mem_cons.mp h with h | h
      · exact h ▸ List.mem_cons_self _ _
      · exact List.mem_cons_of_mem _ (ih h)

lemma containsC_false_iff {c : Char} {l : Str} : containsC c l = false ↔ c ∉ l := by
  unfold containsC
  constructor
  · intro h hm
    have : l.any (fun x => x == c) = true := List.any_eq_true.mpr ⟨c, hm, by simp⟩
    rw [h] at this
    cases this
  · intro h
    by_cases ha : l.any (fun x => x == c) = true
    · obtain ⟨x, hx, he⟩ := List.any_eq_true.mp ha
      rw [beq_iff_eq] at he
      exact absurd (he ▸ hx) h
    · revert ha; cases l.any (fun x => x == c) <;> simp

lemma mem_dropLast_or_suffix {x : Char} {l : Str} (h : x ∈ l) :
    x ∈ l.dropLast ∨ suffixB [x] l = true := by
  induction l with
  | nil => simp at h
  | cons c cs ih =>
    cases cs with
    | nil =>
      right
      rcases List.mem_cons.mp h with rfl | h2
      · exact suffixB_singleton_iff.mpr ⟨[], rfl⟩
      · simp at h2
    | cons d ds =>
      rcases List.mem_cons.mp h with rfl | h2
      · left
        rw [List.dropLast_cons₂]
        exact List.mem_cons_self _ _
      · rcases ih h2 with h3 | h3
        · left
          rw [List.dropLast_cons₂]
          exact List.mem_cons_of_mem _ h3
        · right
          obtain ⟨ys, hys⟩ := suffixB_singleton_iff.mp h3
          exact suffixB_singleton_iff.mpr ⟨c :: ys, by rw [hys]; rfl⟩

lemma not_mem_of_checks {x : Char} {l : Str} (hdrop : containsC x l.dropLast = false)
    (hsuf : suffixB [x] l = false) : x ∉ l := by
  intro hm
  rcases mem_dropLast_or_suffix hm with h | h
  · exact absurd h (containsC_false_iff.mp hdrop)
  · rw [h] at hsuf
    cases hsuf
lemma validate_tail_ok_inversion {x : Str} {p : SqlPolicy} {t : Str}
    (h : validate_tail x p = .ok t) :
    t = x
    ∧ DISALLOWED_KEYWORDS.find? (fun kw => infixB kw (upperL x)) = none
    ∧ (((find_tables x).map lowerL).dedup).isEmpty = false
    ∧ sortStrs ((((find_tables x).map lowerL).dedup).filter
        (fun t2 => !(((p.allowed_tables.map lowerL) ++ find_cte_names x).contains t2))) = [] := by
  unfold validate_tail at h
  dsimp only at h
  split at h
  · cases h
  next hkw =>
  split at h
  · cases h
  next h5 =>
  split at h
  · cases h
  next h6 =>
  injection h with h
  refine ⟨h.symm, hkw, ?_, ?_⟩
  · revert h5; cases (((find_tables x).map lowerL).dedup).isEmpty <;> simp
  · revert h6
    cases hu : sortStrs ((((find_tables x).map lowerL).dedup).filter
        (fun t2 => !(((p.allowed_tables.map lowerL) ++ find_cte_names x).contains t2))) <;> simp

lemma validate_tail_ok_construct (x : Str) (p : SqlPolicy)
    (h4 : DISALLOWED_KEYWORDS.find? (fun kw => infixB kw (upperL x)) = none)
    (h5 : (((find_tables x).map lowerL).dedup).isEmpty = false)
    (h6 : sortStrs ((((find_tables x).map lowerL).dedup).filter
        (fun t2 => !(((p.allowed_tables.map lowerL) ++ find_cte_names x).contains t2))) = []) :
    validate_tail x p = .ok x := by
  unfold validate_tail
  dsimp only
  rw [h4, h5, h6]
  simp

lemma validate_tail_unauthorized_inversion {x : Str} {p : SqlPolicy} {ts : List Str}
    (h : validate_tail x p = .error (.UnauthorizedTable ts)) :
    ts = sortStrs ((((find_tables x).map lowerL).dedup).filter
      (fun t2 => !(((p.allowed_tables.map lowerL) ++ find_cte_names x).contains t2))) := by
  unfold validate_tail at h
  dsimp only at h
  split at h
  · injection h with h
    exact UnsafeSQLError.noConfusion h
  split at h
  · injection h with h
    exact UnsafeSQLError.noConfusion h
  split at h
  · injection h with h
    injection h with h
    exact h.symm
  · exact Except.noConfusion h

lemma validate_passes_prelude {s : Str} {p : SqlPolicy}
    (h1 : (normalize_sql s).isEmpty = false)
    (h2 : (prefixB ("SELECT").data (lstrip (upperL (normalize_sql s)))
        || prefixB ("WITH").data (lstrip (upperL (normalize_sql s)))) = true)
    (h3 : containsC ';' (strip (normalize_sql s)).dropLast = false) :
    validate_sql s p = validate_tail (canon_sql s) p := by
  unfold validate_sql
  dsimp only
  rw [h1, h2, h3]
  simp

lemma validate_ok_inversion {s : Str} {p : SqlPolicy} {t : Str}
    (h : validate_sql s p = .ok t) :
    t = canon_sql s
    ∧ (normalize_sql s).isEmpty = false
    ∧ (prefixB ("SELECT").data (lstrip (upperL (normalize_sql s)))
        || prefixB ("WITH").data (lstrip (upperL (normalize_sql s)))) = true
    ∧ containsC ';' (strip (normalize_sql s)).dropLast = false
    ∧ DISALLOWED_KEYWORDS.find? (fun kw => infixB kw (upperL (canon_sql s))) = none
    ∧ (((find_tables (canon_sql s)).map lowerL).dedup).isEmpty = false
    ∧ sortStrs ((((find_tables (canon_sql s)).map lowerL).dedup).filter
        (fun t2 => !(((p.allowed_tables.map lowerL) ++ find_cte_names (canon_sql s)).contains t2))) = [] := by
  unfold validate_sql at h
  dsimp only at h
  split at h
  · cases h
  next h1 =>
  split at h
  · cases h
  next h2 =>
  split at h
  · cases h
  next h3 =>
  obtain ⟨ht, hkw, h5, h6⟩ := validate_tail_ok_inversion h
  refine ⟨ht, ?_, ?_, ?_, hkw, h5, h6⟩
  · revert h1; cases (normalize_sql s).isEmpty <;> simp
  · revert h2
    cases hab : (prefixB ("SELECT").data (lstrip (upperL (normalize_sql s)))
        || prefixB ("WITH").data (lstrip (upperL (normalize_sql s)))) <;> simp
  · revert h3; cases containsC ';' (strip (normalize_sql s)).dropLast <;> simp

lemma validate_ok_construct (s : Str) (p : SqlPolicy)
    (h1 : (normalize_sql s).isEmpty = false)
    (h2 : (prefixB ("SELECT").data (lstrip (upperL (normalize_sql s)))
        || prefixB ("WITH").data (lstrip (upperL (normalize_sql s)))) = true)
    (h3 : containsC ';' (strip (normalize_sql s)).dropLast = false)
    (h4 : DISALLOWED_KEYWORDS.find? (fun kw => infixB kw (upperL (canon_sql s))) = none)
    (h5 : (((find_tables (canon_sql s)).map lowerL).dedup).isEmpty = false)
    (h6 : sortStrs ((((find_tables (canon_sql s)).map lowerL).dedup).filter
        (fun t2 => !(((p.allowed_tables.map lowerL) ++ find_cte_names (canon_sql s)).contains t2))) = []) :
    validate_sql s p = .ok (canon_sql s) := by
  rw [validate_passes_prelude h1 h2 h3]
  exact validate_tail_ok_construct _ p h4 h5 h6
lemma lstrip_upperL_of_stripped {n : Str} (hstr : strip n = n) :
    lstrip (upperL n) = upperL n := by
  cases hn : n with
  | nil => rfl
  | cons c cs =>
    have hc : isSpace c = false := head_strip_not_space (hn ▸ hstr)
    simp only [upperL, List.map_cons]
    exact lstrip_cons_false (by rw [isSpace_toUpper]; exact hc)

lemma normalize_eq_self {t : Str} (hstr : strip t = t)
    (hfence : prefixB ("```").data (lowerL t) = false) : normalize_sql t = t := by
  unfold normalize_sql
  dsimp only
  rw [hstr, hfence]
  simp only [Bool.false_eq_true, if_false]
  exact hstr

lemma canon_of_no_semi {s : Str} (h : (';' : Char) ∉ normalize_sql s) :
    canon_sql s = normalize_sql s := by
  unfold canon_sql
  dsimp only
  rw [normalize_stripped]
  have : suffixB (";").data (normalize_sql s) = false := suffixB_false_of_not_mem h
  rw [this]
  simp
lemma semi_data : (";").data = [';'] := rfl

lemma toLower_toNat_ne_96 {c : Char}
    (h : (Char.toUpper c).toNat = 83 ∨ (Char.toUpper c).toNat = 87) :
    (Char.toLower c).toNat ≠ 96 := by
  rw [toNat_toUpper] at h
  rw [toNat_toLower]
  by_cases h1 : 97 ≤ c.toNat ∧ c.toNat ≤ 122
  · rw [if_pos h1] at h
    by_cases h2 : 65 ≤ c.toNat ∧ c.toNat ≤ 90
    · rw [if_pos h2]; omega
    · rw [if_neg h2]; omega
  · rw [if_neg h1] at h
    by_cases h2 : 65 ≤ c.toNat ∧ c.toNat ≤ 90
    · rw [if_pos h2]; omega
    · rw [if_neg h2]; omega

lemma fence_false_of_select {t : Str}
    (h : (prefixB ("SELECT").data (upperL t) || prefixB ("WITH").data (upperL t)) = true) :
    prefixB ("```").data (lowerL t) = false := by
  cases t with
  | nil => simp [upperL, prefixB] at h
  | cons c cs =>
    have hnat : (Char.toUpper c).toNat = 83 ∨ (Char.toUpper c).toNat = 87 := by
      rcases Bool.or_eq_true_iff.mp h with h1 | h1
      · left
        simp only [upperL, List.map_cons] at h1
        obtain ⟨x, hx, -⟩ := prefixB_cons_iff.mp h1
        injection hx with he he2
        rw [he]
        decide
      · right
        simp only [upperL, List.map_cons] at h1
        obtain ⟨x, hx, -⟩ := prefixB_cons_iff.mp h1
        injection hx with he he2
        rw [he]
        decide
    have hne : (Char.toLower c).toNat ≠ 96 := toLower_toNat_ne_96 hnat
    simp only [lowerL, List.map_cons]
    rw [prefixB_cons]
    have hb : ('`' == Char.toLower c) = false := by
      apply beq_eq_false_iff_ne.mpr
      intro he
      apply hne
      rw [← he]
      decide
    rw [hb]
    simp

lemma prefix_strip_drop_semi {P u : Str} (hP1 : ∀ c ∈ P, isSpace c = false)
    (hP2 : (';' : Char) ∉ P) (hPne : P ≠ [])
    (hstr : strip (u ++ [';']) = u ++ [';'])
    (h : prefixB P (upperL (u ++ [';'])) = true) :
    prefixB P (upperL (strip u)) = true := by
  have hsplit : upperL (u ++ [';']) = upperL u ++ [';'] := by
    simp [upperL, List.map_append]
  rw [hsplit] at h
  have hu : prefixB P (upperL u) = true := prefixB_append_single h hP2
  have hune : u ≠ [] := by
    intro hnil
    subst hnil
    cases P with
    | nil => exact hPne rfl
    | cons a as => exact absurd (prefixB_ne_nil hu) (by simp [upperL])
  obtain ⟨c, cs, rfl⟩ := List.exists_cons_of_ne_nil hune
  have hc : isSpace c = false := by
    have h2 : strip (c :: (cs ++ [';'])) = c :: (cs ++ [';']) := by
      rw [← List.cons_append]
      exact hstr
    exact head_strip_not_space h2
  have hl : strip (c :: cs) = rstrip (c :: cs) := by
    unfold strip
    rw [lstrip_cons_false hc]
  rw [hl]
  exact prefixB_upper_rstrip hP1 hu

lemma canon_facts {s : Str}
    (h2 : (prefixB ("SELECT").data (lstrip (upperL (normalize_sql s)))
        || prefixB ("WITH").data (lstrip (upperL (normalize_sql s)))) = true)
    (h3 : containsC ';' (strip (normalize_sql s)).dropLast = false) :
    strip (canon_sql s) = canon_sql s
    ∧ (';' : Char) ∉ canon_sql s
    ∧ (prefixB ("SELECT").data (upperL (canon_sql s))
        || prefixB ("WITH").data (upperL (canon_sql s))) = true := by
  have hstr : strip (normalize_sql s) = normalize_sql s := normalize_stripped s
  rw [lstrip_upperL_of_stripped hstr] at h2
  rw [hstr] at h3
  unfold canon_sql
  dsimp only
  rw [hstr]
  by_cases hsuf : suffixB (";").data (normalize_sql s) = true
  · rw [hsuf]
    simp only [if_pos]
    rw [semi_data] at hsuf
    obtain ⟨u, hu⟩ := suffixB_singleton_iff.mp hsuf
    rw [hu] at h2 h3 hstr ⊢
    rw [List.dropLast_concat] at h3 ⊢
    have hnos : (';' : Char) ∉ u := containsC_false_iff.mp h3
    refine ⟨strip_idem u, fun hm => hnos (mem_strip hm), ?_⟩
    rcases Bool.or_eq_true_iff.mp h2 with h1 | h1
    · apply Bool.or_eq_true_iff.mpr
      left
      exact prefix_strip_drop_semi (by decide) (by decide) (by decide) hstr h1
    · apply Bool.or_eq_true_iff.mpr
      right
      exact prefix_strip_drop_semi (by decide) (by decide) (by decide) hstr h1
  · have hsuf' : suffixB (";").data (normalize_sql s) = false := by
      revert hsuf; cases suffixB (";").data (normalize_sql s) <;> simp
    rw [hsuf']
    simp only [Bool.false_eq_true, if_false]
    have hnos : (';' : Char) ∉ normalize_sql s := by
      apply not_mem_of_checks h3
      rw [← semi_data]
      exact hsuf'
    exact ⟨hstr, hnos, h2⟩
lemma canon_canon {s : Str}
    (h2 : (prefixB ("SELECT").data (lstrip (upperL (normalize_sql s)))
        || prefixB ("WITH").data (lstrip (upperL (normalize_sql s)))) = true)
    (h3 : containsC ';' (strip (normalize_sql s)).dropLast = false) :
    normalize_sql (canon_sql s) = canon_sql s ∧ canon_sql (canon_sql s) = canon_sql s := by
  obtain ⟨hstr, hnos, hpre⟩ := canon_facts h2 h3
  have hfence := fence_false_of_select hpre
  have hnorm : normalize_sql (canon_sql s) = canon_sql s := normalize_eq_self hstr hfence
  refine ⟨hnorm, ?_⟩
  generalize hT : canon_sql s = T at hnorm hstr hnos ⊢
  unfold canon_sql
  dsimp only
  rw [hnorm, hstr]
  have hsuf : suffixB (";").data T = false := by
    rw [semi_data]
    exact suffixB_false_of_not_mem hnos
  rw [hsuf]
  simp [hnorm]

/-- C8 helper: a successfully validated text re-validates to itself. -/
lemma validate_idem {s : Str} {p : SqlPolicy} {t : Str}
    (h : validate_sql s p = .ok t) : validate_sql t p = .ok t := by
  obtain ⟨ht, h1, h2, h3, h4, h5, h6⟩ := validate_ok_inversion h
  subst ht
  obtain ⟨hstr, hnos, hpre⟩ := canon_facts h2 h3
  obtain ⟨hnorm, hcanon⟩ := canon_canon h2 h3
  have hres := validate_ok_construct (canon_sql s) p
    (by
      rw [hnorm]
      cases hc : canon_sql s with
      | nil =>
        exfalso
        rw [hc] at hpre
        simp [upperL, prefixB] at hpre
      | cons a as => simp)
    (by rw [hnorm, lstrip_upperL_of_stripped hstr]; exact hpre)
    (by
      rw [hnorm, hstr]
      apply containsC_false_iff.mpr
      intro hm
      exact hnos (mem_dropLast hm))
    (by rw [hcanon]; exact h4)
    (by rw [hcanon]; exact h5)
    (by rw [hcanon]; exact h6)
  rw [hcanon] at hres
  exact hres
lemma isEmpty_false_of_select {n : Str}
    (h2 : (prefixB ("SELECT").data (lstrip (upperL n))
        || prefixB ("WITH").data (lstrip (upperL n))) = true) :
    n.isEmpty = false := by
  cases n with
  | nil => simp [upperL, lstrip, prefixB] at h2
  | cons c cs => simp [List.isEmpty]

lemma containsC_dropLast_false {c : Char} {l : Str} (h : containsC c l = false) :
    containsC c l.dropLast = false := by
  apply containsC_false_iff.mpr
  intro hm
  exact (containsC_false_iff.mp h) (mem_dropLast hm)

lemma validate_tail_kw_error {x : Str} (p : SqlPolicy) {kw : Str}
    (h4 : DISALLOWED_KEYWORDS.find? (fun k => infixB k (upperL x)) = some kw) :
    validate_tail x p = .error (.DisallowedKeyword kw) := by
  unfold validate_tail
  dsimp only
  rw [h4]

lemma validate_tail_notable {x : Str} (p : SqlPolicy)
    (h4 : DISALLOWED_KEYWORDS.find? (fun k => infixB k (upperL x)) = none)
    (h5 : (((find_tables x).map lowerL).dedup).isEmpty = true) :
    validate_tail x p = .error .NoTableReferenced := by
  unfold validate_tail
  dsimp only
  rw [h4, h5]
  simp

lemma mem_insertStr {x y : Str} {l : List Str} : x ∈ insertStr y l ↔ x = y ∨ x ∈ l := by
  induction l with
  | nil => simp [insertStr]
  | cons z zs ih =>
    unfold insertStr
    by_cases hz : lexLt y z = true
    · rw [if_pos hz]
      simp [List.mem_cons]
    · rw [if_neg hz]
      simp only [List.mem_cons, ih]
      tauto

lemma mem_sortStrs {x : Str} {l : List Str} : x ∈ sortStrs l ↔ x ∈ l := by
  induction l with
  | nil => simp [sortStrs]
  | cons y ys ih =>
    unfold sortStrs
    rw [mem_insertStr, ih]
    simp [List.mem_cons]
/-- The amended universal form behind C3: once the prelude checks pass and no
semicolon is present, any disallowed-keyword hit makes validation fail with
DisallowedKeyword. -/
lemma validate_disallowed_of_kw {s : Str} (p : SqlPolicy)
    (h2 : (prefixB ("SELECT").data (lstrip (upperL (normalize_sql s)))
        || prefixB ("WITH").data (lstrip (upperL (normalize_sql s)))) = true)
    (hnos : containsC ';' (normalize_sql s) = false)
    (hkw : ∃ kw ∈ DISALLOWED_KEYWORDS, infixB kw (upperL (normalize_sql s)) = true) :
    ∃ kw, validate_sql s p = .error (.DisallowedKeyword kw) := by
  have hstr := normalize_stripped s
  have hnosm : (';' : Char) ∉ normalize_sql s := containsC_false_iff.mp hnos
  have hcanon : canon_sql s = normalize_sql s := canon_of_no_semi hnosm
  have h3 : containsC ';' (strip (normalize_sql s)).dropLast = false := by
    rw [hstr]
    exact containsC_dropLast_false hnos
  have hfind : DISALLOWED_KEYWORDS.find?
      (fun k => infixB k (upperL (canon_sql s))) ≠ none := by
    rw [hcanon]
    intro hn
    obtain ⟨kw0, hmem, hinf⟩ := hkw
    have := List.find?_eq_none.mp hn kw0 hmem
    rw [hinf] at this
    exact this rfl
  obtain ⟨kw, hkweq⟩ := Option.ne_none_iff_exists'.mp hfind
  refine ⟨kw, ?_⟩
  rw [validate_passes_prelude (isEmpty_false_of_select h2) h2 h3]
  exact validate_tail_kw_error p hkweq

/-- The amended universal form behind C10: with the prelude passed, no
keyword hit, and every FROM/JOIN identifier in the built-in exclusion set,
validation fails with NoTableReferenced. -/
lemma validate_notable_of_excluded {s : Str} (p : SqlPolicy)
    (h2 : (prefixB ("SELECT").data (lstrip (upperL (normalize_sql s)))
        || prefixB ("WITH").data (lstrip (upperL (normalize_sql s)))) = true)
    (hnos : containsC ';' (normalize_sql s) = false)
    (hkw : ∀ kw ∈ DISALLOWED_KEYWORDS, infixB kw (upperL (normalize_sql s)) = false)
    (htab : ∀ x ∈ tableNames (normalize_sql s), x ∈ SQL_FUNCTIONS_AND_CONSTANTS) :
    validate_sql s p = .error .NoTableReferenced := by
  have hstr := normalize_stripped s
  have hnosm : (';' : Char) ∉ normalize_sql s := containsC_false_iff.mp hnos
  have hcanon : canon_sql s = normalize_sql s := canon_of_no_semi hnosm
  have h3 : containsC ';' (strip (normalize_sql s)).dropLast = false := by
    rw [hstr]
    exact containsC_dropLast_false hnos
  rw [validate_passes_prelude (isEmpty_false_of_select h2) h2 h3]
  apply validate_tail_notable
  · rw [hcanon]
    apply List.find?_eq_none.mpr
    intro k hk
    rw [hkw k hk]
    simp
  · rw [hcanon]
    have hft : find_tables (normalize_sql s) = [] := by
      apply List.filter_eq_nil_iff.mpr
      intro a ha
      have hmem := htab a ha
      simp only [Bool.not_eq_true', Bool.not_eq_false]
      exact List.elem_iff.mpr hmem
    rw [hft]
    rfl
set_option maxRecDepth 100000 in
set_option maxHeartbeats 4000000 in
/-- Every clamped `LIMIT n` template (n between 1 and 50) round-trips through
the guard. -/
lemma topn_valid : ∀ n ∈ List.range 51, n ≠ 0 →
    validate_sql (top_n_sql n) defaultPolicy = .ok (top_n_sql n) := by decide

set_option maxRecDepth 100000 in
set_option maxHeartbeats 4000000 in
/-- C7 backbone: every SQL text the router emits is returned unchanged by the
guard under the fixed policy. -/
lemma route_validates {q : Str} {m : TemplateMatch}
    (h : generate_sql_from_templates q = .ok m) :
    validate_sql m.sql defaultPolicy = .ok m.sql := by
  unfold generate_sql_from_templates at h
  dsimp only at h
  split at h
  · cases h
  split at h
  · injection h with h
    subst h
    decide
  split at h
  · injection h with h
    subst h
    decide
  split at h
  · injection h with h
    subst h
    decide
  split at h
  next n0 hs =>
    injection h with h
    subst h
    have hb : max 1 (min n0 50) ∈ List.range 51 := by
      simp only [List.mem_range]
      omega
    exact topn_valid _ hb (by omega)
  split at h
  · injection h with h
    subst h
    decide
  split at h
  · injection h with h
    subst h
    decide
  split at h
  · injection h with h
    subst h
    decide
  · cases h
/-- C4 backbone: whenever the step-token gate passes, none of the earlier
rules fires and `top\s+(\d+)` is found with value `n`, the router returns the
top-N rule with the clamp `max 1 (min n 50)` applied inside the template. -/
lemma route_topn {q : Str} {n : Nat}
    (hgate : (!(infixB ("steps").data (norm_question q))
        && !(infixB ("walk").data (norm_question q))
        && !(infixB ("step").data (norm_question q))) = false)
    (hyear : (infixB ("this year").data (norm_question q)
        || infixB ("in 2025").data (norm_question q)
        || infixB ("this yr").data (norm_question q)) = false)
    (hmonth : infixB ("this month").data (norm_question q) = false)
    (havg : (infixB ("average").data (norm_question q)
        || infixB ("avg").data (norm_question q)) = false)
    (htop : searchTopN (norm_question q) = some n) :
    generate_sql_from_templates q =
      .ok ⟨top_n_sql (max 1 (min n 50)), ("top_n_days").data⟩ := by
  unfold generate_sql_from_templates
  dsimp only
  rw [hgate, hyear, hmonth, havg, htop]
  simp
lemma executed_is_validated {question : Str} {envT envM : Option Str}
    {hfGen : Str → HfConfig → Except HfGenError Str}
    {execF : Str → Except ExecError Df} {ft : Bool} {s : Str}
    (h : ConnEvent.executed s ∈
      (answer_steps_question question envT envM hfGen execF ft).2) :
    ∃ c, validate_sql c defaultPolicy = .ok s := by
  unfold answer_steps_question at h
  dsimp only at h
  split at h
  · simp at h
  split at h
  · simp at h
  next sql prov hgen =>
  split at h
  · simp at h
  next vsql hval =>
  split at h
  · next e hexec =>
    simp only [List.mem_cons, List.mem_singleton] at h
    rcases h with h | h | h
    · cases h
    · injection h with h
      exact ⟨sql, h ▸ hval⟩
    · simp at h
  · next df hexec =>
    simp only [List.mem_cons, List.mem_singleton] at h
    rcases h with h | h | h
    · cases h
    · injection h with h
      exact ⟨sql, h ▸ hval⟩
    · rcases h with h | h
      · cases h
      · simp at h
lemma validate_unauthorized_inversion {s : Str} {p : SqlPolicy} {ts : List Str}
    (h : validate_sql s p = .error (.UnauthorizedTable ts)) :
    ts = sortStrs ((((find_tables (canon_sql s)).map lowerL).dedup).filter
      (fun t2 => !(((p.allowed_tables.map lowerL) ++ find_cte_names (canon_sql s)).contains t2))) := by
  unfold validate_sql at h
  dsimp only at h
  split at h
  · injection h with h
    exact UnsafeSQLError.noConfusion h
  split at h
  · injection h with h
    exact UnsafeSQLError.noConfusion h
  split at h
  · injection h with h
    exact UnsafeSQLError.noConfusion h
  exact validate_tail_unauthorized_inversion h

lemma unauthorized_member_facts {s : Str} {p : SqlPolicy} {ts : List Str}
    (h : validate_sql s p = .error (.UnauthorizedTable ts)) :
    ∀ x ∈ ts, x ∈ ((find_tables (canon_sql s)).map lowerL).dedup
      ∧ x ∉ p.allowed_tables.map lowerL
      ∧ x ∉ find_cte_names (canon_sql s) := by
  intro x hx
  rw [validate_unauthorized_inversion h, mem_sortStrs, List.mem_filter] at hx
  have hc : (((p.allowed_tables.map lowerL) ++ find_cte_names (canon_sql s)).contains x) = false := by
    have := hx.2
    simp only [Bool.not_eq_true'] at this
    exact this
  have hnm : x ∉ ((p.allowed_tables.map lowerL) ++ find_cte_names (canon_sql s)) := by
    intro hm
    have := List.elem_iff.mpr hm
    rw [show (((p.allowed_tables.map lowerL) ++ find_cte_names (canon_sql s)).elem x)
        = (((p.allowed_tables.map lowerL) ++ find_cte_names (canon_sql s)).contains x) from rfl] at this
    rw [hc] at this
    cases this
  exact ⟨hx.1, fun hm => hnm (List.mem_append_left _ hm),
    fun hm => hnm (List.mem_append_right _ hm)⟩

/-! ### Demonstration fixtures for the end-to-end claims -/

/-- The two-row store of the end-to-end claim: 2025-01-01 → 150 steps,
2025-06-01 → 200 steps. -/
def demo_rows : List (DateT × Int) := [(⟨2025, 1, 1⟩, 150), (⟨2025, 6, 1⟩, 200)]

/-- A current date inside the same calendar year as both rows. -/
def demo_today : DateT := ⟨2025, 6, 15⟩

/-- A model-backed generation outcome that fails with a transport error. -/
def demo_hf_fail : Str → HfConfig → Except HfGenError Str :=
  fun _ _ => .error ⟨("transport failure").data⟩

/-- The end-to-end run of the spec's scenario: the this-year question, forced
templates, the two-row store. -/
def demo_run_templates : Except AnswerError QAResult × List ConnEvent :=
  answer_steps_question (("How many steps did I walk this year?").data) none none
    demo_hf_fail (storeExec demo_rows demo_today) true

/-- A store whose execution always fails (e.g. a missing column). -/
def demo_exec_fail : Str → Except ExecError Df :=
  fun _ => .error ⟨("Binder Error: column does not exist").data⟩

/-- The same question against the failing store. -/
def demo_run_execfail : Except AnswerError QAResult × List ConnEvent :=
  answer_steps_question (("How many steps did I walk this year?").data) none none
    demo_hf_fail demo_exec_fail true

/-! ### The claims -/

/-- C1: every SQL string the orchestrator executes against the store — for
either provider and on every path — is exactly a string previously returned
by the guard's validation under the fixed policy (daily_steps); no path
reaches execution without passing through `validate_sql`. -/
theorem C1_executed_sql_is_guard_output :
    ∀ (question : Str) (envT envM : Option Str)
      (hfGen : Str → HfConfig → Except HfGenError Str)
      (execF : Str → Except ExecError Df) (force_templates : Bool) (s : Str),
      ConnEvent.executed s ∈
        (answer_steps_question question envT envM hfGen execF force_templates).2 →
      ∃ c, validate_sql c defaultPolicy = .ok s :=
  fun _ _ _ _ _ _ _ h => executed_is_validated h

theorem C1_executed_sql_is_guard_output_witness :
    ConnEvent.executed sum_this_year_sql ∈ demo_run_templates.2
    ∧ ∃ c, validate_sql c defaultPolicy = .ok sum_this_year_sql :=
  ⟨by decide, C1_executed_sql_is_guard_output
    (("How many steps did I walk this year?").data) none none demo_hf_fail
    (storeExec demo_rows demo_today) true sum_this_year_sql (by decide)⟩

/-- C2 (code bug): with an HF token present, forceTemplates off and no strict
flag requested (the source accepts no strict flag at all), a failing
model-backed generation is propagated as a Generation error instead of
falling back to the Template provider — even though the template router
answers this very question. -/
theorem C2_no_fallback_on_generation_failure :
    answer_steps_question (("How many steps did I walk this year?").data)
        (some ("hf_abc").data) none demo_hf_fail (storeExec demo_rows demo_today) false
      = (.error (.Generation ⟨("transport failure").data⟩), [])
    ∧ generate_sql_from_templates (("How many steps did I walk this year?").data)
      = .ok ⟨sum_this_year_sql, ("sum_this_year").data⟩ :=
  ⟨by decide, by decide⟩

/-- C3 counterexample: `DELETE FROM daily_steps` contains the disallowed
keyword DELETE, yet validation rejects it with NotASelect (the SELECT/WITH
check runs before the keyword scan), not with DisallowedKeyword. -/
theorem C3_counterexample_delete_is_notaselect :
    infixB ("DELETE").data (upperL ("DELETE FROM daily_steps").data) = true
    ∧ validate_sql ("DELETE FROM daily_steps").data defaultPolicy = .error .NotASelect :=
  ⟨by decide, by decide⟩

/-- C3 amended: `DELETE FROM daily_steps` fails with NotASelect; for SQL whose
normalized text starts (case-insensitively) with SELECT or WITH and contains
no semicolon, any disallowed keyword occurring as a case-insensitive
substring makes validation fail with DisallowedKeyword. -/
theorem C3_keyword_rejection :
    (validate_sql ("DELETE FROM daily_steps").data defaultPolicy = .error .NotASelect)
    ∧ ∀ (s : Str) (p : SqlPolicy),
      (prefixB ("SELECT").data (lstrip (upperL (normalize_sql s)))
        || prefixB ("WITH").data (lstrip (upperL (normalize_sql s)))) = true →
      containsC ';' (normalize_sql s) = false →
      (∃ kw ∈ DISALLOWED_KEYWORDS, infixB kw (upperL (normalize_sql s)) = true) →
      ∃ kw, validate_sql s p = .error (.DisallowedKeyword kw) :=
  ⟨by decide, fun _ p h2 hnos hkw => validate_disallowed_of_kw p h2 hnos hkw⟩

theorem C3_keyword_rejection_witness :
    ∃ kw, validate_sql ("SELECT xDELETEx FROM daily_steps").data defaultPolicy
      = .error (.DisallowedKeyword kw) :=
  C3_keyword_rejection.2 ("SELECT xDELETEx FROM daily_steps").data defaultPolicy
    (by decide) (by decide) ⟨("DELETE").data, by decide, by decide⟩

/-- C4 counterexample: `route("top 7 days")` does not select the top-N rule —
the step-token pre-gate rejects the question outright, because it contains
none of steps/walk/step. -/
theorem C4_counterexample_top7_no_match :
    generate_sql_from_templates (("top 7 days").data) = .error .NoMatch := by decide

/-- C4 amended: on questions that pass the step-token gate, `top N` routing
works as claimed — N=7 is taken as is, 500 clamps to 50, 0 clamps to 1, and
in general the parsed N is clamped to [1,50] before being embedded in the
top-N template; the literal question "top 7 days", however, fails the gate. -/
theorem C4_topn_clamped :
    generate_sql_from_templates (("top 7 days of steps").data)
      = .ok ⟨top_n_sql 7, ("top_n_days").data⟩
    ∧ generate_sql_from_templates (("top 500 days of steps").data)
      = .ok ⟨top_n_sql 50, ("top_n_days").data⟩
    ∧ generate_sql_from_templates (("top 0 days of steps").data)
      = .ok ⟨top_n_sql 1, ("top_n_days").data⟩
    ∧ ∀ (q : Str) (n : Nat),
      (!(infixB ("steps").data (norm_question q))
        && !(infixB ("walk").data (norm_question q))
        && !(infixB ("step").data (norm_question q))) = false →
      (infixB ("this year").data (norm_question q)
        || infixB ("in 2025").data (norm_question q)
        || infixB ("this yr").data (norm_question q)) = false →
      infixB ("this month").data (norm_question q) = false →
      (infixB ("average").data (norm_question q)
        || infixB ("avg").data (norm_question q)) = false →
      searchTopN (norm_question q) = some n →
      generate_sql_from_templates q
        = .ok ⟨top_n_sql (max 1 (min n 50)), ("top_n_days").data⟩ :=
  ⟨by decide, by decide, by decide,
   fun _ _ hg hy hm ha ht => route_topn hg hy hm ha ht⟩

theorem C4_topn_clamped_witness :
    generate_sql_from_templates (("walk my top 123 days").data)
      = .ok ⟨top_n_sql (max 1 (min 123 50)), ("top_n_days").data⟩ :=
  C4_topn_clamped.2.2.2 (("walk my top 123 days").data) 123
    (by decide) (by decide) (by decide) (by decide) (by decide)

/-- C5 counterexample: on the two-row store the end-to-end answer is the
scalar 350, but the provider tag of the QAResult is the string "templates",
not "template" as the claim states. -/
theorem C5_counterexample_provider_string :
    demo_run_templates.1
      = .ok ⟨sum_this_year_sql, ⟨[("answer").data], [[350]]⟩, some 350, ("templates").data⟩
    ∧ ("templates").data ≠ ("template").data :=
  ⟨by decide, by decide⟩

/-- C5 amended: end to end with forceTemplates on the two-row store
(2025-01-01 → 150, 2025-06-01 → 200, both in the current calendar year of the
fixed current date), the this-year question yields exactly one row with a
column named answer holding 350 — reported as the scalar answer — and the
provider tag "templates" (the source's spelling). -/
theorem C5_end_to_end_scalar_350 :
    demo_run_templates.1
      = .ok ⟨sum_this_year_sql, ⟨[("answer").data], [[350]]⟩, some 350, ("templates").data⟩ := by
  decide

/-- C6 (code bug): when the store rejects the validated statement, the
orchestrator raises the execution error with the connection opened but never
closed — `con.close()` is only reached on the success path. -/
theorem C6_connection_not_closed_on_exec_failure :
    demo_run_execfail.1
      = .error (.Execution ⟨("Binder Error: column does not exist").data⟩)
    ∧ demo_run_execfail.2 = [ConnEvent.opened, ConnEvent.executed sum_this_year_sql]
    ∧ ConnEvent.closed ∉ demo_run_execfail.2 :=
  ⟨by decide, by decide, by decide⟩

/-- C7: whenever the router succeeds, the SQL it emits passes the guard under
the policy (daily_steps) and is returned by validation unchanged. -/
theorem C7_template_validate_roundtrip :
    ∀ (q : Str) (m : TemplateMatch),
      generate_sql_from_templates q = .ok m →
      validate_sql m.sql defaultPolicy = .ok m.sql :=
  fun _ _ h => route_validates h

theorem C7_template_validate_roundtrip_witness :
    generate_sql_from_templates (("How many steps did I walk this year?").data)
      = .ok ⟨sum_this_year_sql, ("sum_this_year").data⟩
    ∧ validate_sql sum_this_year_sql defaultPolicy = .ok sum_this_year_sql :=
  ⟨by decide,
   C7_template_validate_roundtrip (("How many steps did I walk this year?").data)
     ⟨sum_this_year_sql, ("sum_this_year").data⟩ (by decide)⟩

/-- C8: the guard is idempotent on its own output — if validation of `s`
succeeds with text `t`, validating `t` succeeds and returns `t` again. -/
theorem C8_validate_idempotent :
    ∀ (s : Str) (p : SqlPolicy) (t : Str),
      validate_sql s p = .ok t → validate_sql t p = .ok t :=
  fun _ _ _ h => validate_idem h

theorem C8_validate_idempotent_witness :
    validate_sql ("SELECT SUM(steps) AS answer FROM daily_steps;").data defaultPolicy
      = .ok ("SELECT SUM(steps) AS answer FROM daily_steps").data
    ∧ validate_sql ("SELECT SUM(steps) AS answer FROM daily_steps").data defaultPolicy
      = .ok ("SELECT SUM(steps) AS answer FROM daily_steps").data :=
  ⟨by decide,
   C8_validate_idempotent ("SELECT SUM(steps) AS answer FROM daily_steps;").data
     defaultPolicy ("SELECT SUM(steps) AS answer FROM daily_steps").data (by decide)⟩

/-- C9: a WITH-declared CTE name is treated as a locally allowed table (the
spec's example validates unchanged), and in general every identifier reported
by UnauthorizedTable is a referenced table that is in neither the policy
allow-list nor the statement's CTE names. -/
theorem C9_cte_locally_allowed :
    validate_sql ("WITH recent AS (SELECT * FROM daily_steps) SELECT * FROM recent").data
        defaultPolicy
      = .ok ("WITH recent AS (SELECT * FROM daily_steps) SELECT * FROM recent").data
    ∧ ∀ (s : Str) (p : SqlPolicy) (ts : List Str),
        validate_sql s p = .error (.UnauthorizedTable ts) →
        ∀ x ∈ ts, x ∈ ((find_tables (canon_sql s)).map lowerL).dedup
          ∧ x ∉ p.allowed_tables.map lowerL
          ∧ x ∉ find_cte_names (canon_sql s) :=
  ⟨by decide, fun _ _ _ h => unauthorized_member_facts h⟩

theorem C9_cte_locally_allowed_witness :
    ("users").data ∈ ((find_tables (canon_sql ("SELECT * FROM users").data)).map lowerL).dedup
    ∧ ("users").data ∉ defaultPolicy.allowed_tables.map lowerL
    ∧ ("users").data ∉ find_cte_names (canon_sql ("SELECT * FROM users").data) :=
  C9_cte_locally_allowed.2 ("SELECT * FROM users").data defaultPolicy
    [("users").data] (by decide) ("users").data (by decide)

/-- C10 counterexample: `SELECT xDROPx FROM now` starts with SELECT and its
only FROM/JOIN identifier (`now`) is in the built-in exclusion set, yet
validation fails with DisallowedKeyword (the keyword scan runs first), not
NoTableReferenced. -/
theorem C10_counterexample_keyword_first :
    tableNames (normalize_sql ("SELECT xDROPx FROM now").data) = [("now").data]
    ∧ ("now").data ∈ SQL_FUNCTIONS_AND_CONSTANTS
    ∧ prefixB ("SELECT").data (lstrip (upperL (normalize_sql ("SELECT xDROPx FROM now").data))) = true
    ∧ validate_sql ("SELECT xDROPx FROM now").data defaultPolicy
      = .error (.DisallowedKeyword ("DROP").data) :=
  ⟨by decide, by decide, by decide, by decide⟩

/-- C10 amended: `SELECT * FROM date` fails with NoTableReferenced, and in
general a semicolon-free SELECT statement with no disallowed-keyword
substring whose every FROM/JOIN identifier (last dot segment, lower-cased)
lies in the built-in exclusion set fails with NoTableReferenced rather than
UnauthorizedTable. -/
theorem C10_excluded_identifiers_no_table :
    validate_sql ("SELECT * FROM date").data defaultPolicy = .error .NoTableReferenced
    ∧ ∀ (s : Str) (p : SqlPolicy),
      prefixB ("SELECT").data (lstrip (upperL (normalize_sql s))) = true →
      containsC ';' (normalize_sql s) = false →
      (∀ kw ∈ DISALLOWED_KEYWORDS, infixB kw (upperL (normalize_sql s)) = false) →
      (∀ x ∈ tableNames (normalize_sql s), x ∈ SQL_FUNCTIONS_AND_CONSTANTS) →
      validate_sql s p = .error .NoTableReferenced :=
  ⟨by decide, fun _ p hsel hnos hkw htab =>
    validate_notable_of_excluded p (Bool.or_eq_true_iff.mpr (Or.inl hsel)) hnos hkw htab⟩

theorem C10_excluded_identifiers_no_table_witness :
    validate_sql ("SELECT steps FROM current_date").data defaultPolicy
      = .error .NoTableReferenced :=
  C10_excluded_identifiers_no_table.2 ("SELECT steps FROM current_date").data defaultPolicy
    (by decide) (by decide) (by decide) (by decide)
